import Mathlib

/-!
Verification of the dispatch core of the ntfy real-time client
(src/ntfy_real_time_client/__init__.py).

The embedding models:
- Python dicts with string keys as association lists (`PyDict`), with
  Python assignment semantics (`setKey`) and lookup (`lookupD`);
- Python `str.split()` (no separator argument) as `pySplit`;
- the notification normalizer `get_notification_model`;
- the registration operations `register_command` (shared shape of the
  `register_command` / `register_command_parser` / `register_parser`
  decorators and the `add_command_function` / `add_command_parser` /
  `add_parser` methods: all perform `REGISTRY.update({f.__name__: f})`),
  `register_shell_command` (module-level, takes `command.split()[0]`) and
  `add_shell_command` (method, adds the whole string);
- the dispatcher `process_message` together with its helper methods
  `process_command_function`, `process_parser_command`,
  `process_shell_command`, `process_shell_alias` and `process_parser_all`.

Handlers are abstract values of a type `H`; their behavior is a parameter
`run : H → PyDict → Regs H → Regs H × Option PyErr`, so a handler may
mutate the process-wide registries and may raise.  The dispatcher returns
the ordered trace of invocations it performed (handler calls and
`subprocess.Popen` spawns), the final registry state, and the propagated
error, if any.  A raised error aborts the rest of the dispatch, matching
Python's uncaught-exception semantics.
-/

namespace NtfyRTC

/-- Python values as they occur in notification dicts.  `Value.none` is
Python's `None`, the explicit absence marker used by the normalizer. -/
inductive Value where
  | none
  | str (s : String)
  | int (n : Int)
  | bool (b : Bool)
deriving DecidableEq, Repr

/-- A Python dict with string keys, as an association list. -/
abbrev PyDict := List (String × Value)

/-- Python dict assignment `d[k] = v` (also a one-key `d.update({k: v})`):
replace the value in place if the key is present, else append the pair. -/
def setKey {β : Type} : List (String × β) → String → β → List (String × β)
  | [], k, v => [(k, v)]
  | (k', v') :: rest, k, v =>
      if k' = k then (k, v) :: rest else (k', v') :: setKey rest k v

/-- Python dict lookup `d[k]`, returning `Option.none` for a missing key
(the `KeyError` case). -/
def lookupD {β : Type} : List (String × β) → String → Option β
  | [], _ => Option.none
  | (k', v') :: rest, k => if k' = k then some v' else lookupD rest k

/-- Helper for `pySplit`: scan the character list, accumulating the
current word (reversed); whitespace ends the current word, and runs of
whitespace produce no empty words. -/
def splitWsAux : List Char → List Char → List String
  | [], acc => if acc.isEmpty then [] else [String.mk acc.reverse]
  | c :: cs, acc =>
      if c.isWhitespace then
        if acc.isEmpty then splitWsAux cs []
        else String.mk acc.reverse :: splitWsAux cs []
      else splitWsAux cs (c :: acc)

/-- Python `s.split()` with no argument: split on runs of whitespace,
discarding empty pieces (so leading and trailing whitespace produce
nothing, and a whitespace-only string splits to `[]`). -/
def pySplit (s : String) : List String :=
  splitWsAux s.toList []

/-- Python set `s.add(x)`: the set `SHELL_COMMANDS_REGISTRY` modeled as a
duplicate-free list. -/
def setAdd (s : List String) (x : String) : List String :=
  if s.contains x then s else s ++ [x]

/-- Python errors that the modeled code paths can raise. -/
inductive PyErr where
  | indexError
  | attributeError
  | keyError
  | typeError
  | userError (msg : String)
deriving DecidableEq, Repr

/-- The literal `notification_dict` built by `get_notification_model`:
the 20 canonical field names, each initialized to `None`. -/
def notification_dict : PyDict :=
  [("id", Value.none),
   ("id_str", Value.none),
   ("umid", Value.none),
   ("umid_str", Value.none),
   ("title", Value.none),
   ("message", Value.none),
   ("app", Value.none),
   ("aid", Value.none),
   ("aid_str", Value.none),
   ("icon", Value.none),
   ("date", Value.none),
   ("queued_date", Value.none),
   ("dispatched_date", Value.none),
   ("priority", Value.none),
   ("sound", Value.none),
   ("url", Value.none),
   ("url_title", Value.none),
   ("acked", Value.none),
   ("receipt", Value.none),
   ("html", Value.none)]

/-- The canonical field names, in declaration order. -/
def canonical_fields : List String := notification_dict.map Prod.fst

/-- `get_notification_model(**kwargs)`: start from `notification_dict`
and apply `notification_dict.update(**kwargs)`, i.e. assign each supplied
pair in order. -/
def get_notification_model (kwargs : PyDict) : PyDict :=
  kwargs.foldl (fun d p => setKey d p.1 p.2) notification_dict

/-- A stored shell-alias command line: `str | list`, as accepted by
`register_shell_command_alias` and passed on to `subprocess.Popen`. -/
inductive CmdLine where
  | ofString (s : String)
  | ofList (l : List String)
deriving DecidableEq, Repr

/-- The process-wide registries, over an abstract handler type `H`. -/
structure Regs (H : Type) where
  commandFunctions : List (String × H)
  commandParsers : List (String × H)
  parsers : List (String × H)
  shellCommands : List String
  shellAliases : List (String × CmdLine)
deriving DecidableEq, Repr

/-- One observable dispatcher action: a handler invocation with the exact
arguments passed, or a `subprocess.Popen` spawn with the exact `args`
value passed (`shell=True`, fire-and-forget in both spawn cases). -/
inductive Event (H : Type) where
  | callCommandFunction (h : H) (args : List String) (raw : PyDict)
  | callCommandParser (h : H) (raw : PyDict)
  | spawnShell (cmd : CmdLine)
  | spawnShellAlias (cmd : CmdLine)
  | callGlobalParser (h : H) (raw : PyDict)
deriving DecidableEq, Repr

/-- Handler semantics: given the `raw_data` dict and the current
registries, a handler yields the new registries (it may mutate the
process-wide state) and optionally a raised error. -/
abbrev HandlerRun (H : Type) := H → PyDict → Regs H → Regs H × Option PyErr

/-- Result of a dispatch step: trace of events performed so far, final
registry state, and the propagated error if one was raised. -/
abbrev DispatchResult (H : Type) := List (Event H) × Regs H × Option PyErr

/-- Sequencing with Python exception semantics: if the first step raised,
the rest of the dispatch is skipped; otherwise continue from its state. -/
def andThenD {H : Type} (t : DispatchResult H)
    (f : Regs H → DispatchResult H) : DispatchResult H :=
  match t with
  | (evs, r, some e) => (evs, r, some e)
  | (evs, r, Option.none) =>
      match f r with
      | (evs', r', e') => (evs ++ evs', r', e')

/-- `NTFYOpenClientRealTime.process_command_function`: re-split the
message, take `arguments[0]`, and call
`COMMAND_FUNCTIONS_REGISTRY[command](*arguments, raw_data=raw_data)`. -/
def process_command_function {H : Type} (run : HandlerRun H) (regs : Regs H)
    (raw_data : PyDict) : DispatchResult H :=
  match lookupD raw_data "message" with
  | some (Value.str s) =>
      match pySplit s with
      | [] => ([], regs, some PyErr.indexError)
      | command :: _ =>
          match lookupD regs.commandFunctions command with
          | some h =>
              match run h raw_data regs with
              | (regs', err) =>
                  ([Event.callCommandFunction h (pySplit s) raw_data], regs', err)
          | Option.none => ([], regs, some PyErr.keyError)
  | some _ => ([], regs, some PyErr.attributeError)
  | Option.none => ([], regs, some PyErr.keyError)

/-- `NTFYOpenClientRealTime.process_parser_command`: re-split the message,
take `arguments[0]`, and call `COMMAND_PARSERS_REGISTRY[command](raw_data)`. -/
def process_parser_command {H : Type} (run : HandlerRun H) (regs : Regs H)
    (raw_data : PyDict) : DispatchResult H :=
  match lookupD raw_data "message" with
  | some (Value.str s) =>
      match pySplit s with
      | [] => ([], regs, some PyErr.indexError)
      | command :: _ =>
          match lookupD regs.commandParsers command with
          | some h =>
              match run h raw_data regs with
              | (regs', err) => ([Event.callCommandParser h raw_data], regs', err)
          | Option.none => ([], regs, some PyErr.keyError)
  | some _ => ([], regs, some PyErr.attributeError)
  | Option.none => ([], regs, some PyErr.keyError)

/-- `NTFYOpenClientRealTime.process_shell_command`:
`subprocess.Popen(args=raw_data["message"], shell=True)` — the full raw
message string verbatim, no wait, no capture. -/
def process_shell_command {H : Type} (regs : Regs H)
    (raw_data : PyDict) : DispatchResult H :=
  match lookupD raw_data "message" with
  | some (Value.str s) =>
      ([Event.spawnShell (CmdLine.ofString s)], regs, Option.none)
  | some _ => ([], regs, some PyErr.typeError)
  | Option.none => ([], regs, some PyErr.keyError)

/-- `NTFYOpenClientRealTime.process_shell_alias`: look the first word up
in `SHELL_COMMAND_ALIASES_REGISTRY` and spawn the stored command line;
the rest of the message is discarded. -/
def process_shell_alias {H : Type} (regs : Regs H)
    (raw_data : PyDict) : DispatchResult H :=
  match lookupD raw_data "message" with
  | some (Value.str s) =>
      match pySplit s with
      | [] => ([], regs, some PyErr.indexError)
      | aliasWord :: _ =>
          match lookupD regs.shellAliases aliasWord with
          | some c => ([Event.spawnShellAlias c], regs, Option.none)
          | Option.none => ([], regs, some PyErr.keyError)
  | some _ => ([], regs, some PyErr.attributeError)
  | Option.none => ([], regs, some PyErr.keyError)

/-- The body of the `for parser in PARSERS_REGISTRY` loop of
`process_parser_all`: iterate over the keys, looking each up in the current
registry state and invoking it; an uncaught error stops the loop. -/
def process_parser_go {H : Type} (run : HandlerRun H) (raw : PyDict) :
    List String → Regs H → DispatchResult H
  | [], r => ([], r, Option.none)
  | k :: ks, r =>
      match lookupD r.parsers k with
      | Option.none => ([], r, some PyErr.keyError)
      | some h =>
          match run h raw r with
          | (r', some e) => ([Event.callGlobalParser h raw], r', some e)
          | (r', Option.none) =>
              match process_parser_go run raw ks r' with
              | (evs, r'', err) => (Event.callGlobalParser h raw :: evs, r'', err)

/-- `NTFYOpenClientRealTime.process_parser_all`: invoke every registered
global parser with `raw_data`, in registry (insertion) order. -/
def process_parser_all {H : Type} (run : HandlerRun H) (regs : Regs H)
    (raw : PyDict) : DispatchResult H :=
  process_parser_go run raw (regs.parsers.map Prod.fst) regs

/-- `NTFYOpenClientRealTime.process_message`: normalize the inbound
mapping, split the message, take the first word, and run the four gated
paths then the global parsers, in the source's fixed order, threading
registry state and stopping at the first uncaught error. -/
def process_message {H : Type} (run : HandlerRun H) (regs : Regs H)
    (message : PyDict) : DispatchResult H :=
  let raw_data := get_notification_model message
  match lookupD raw_data "message" with
  | some (Value.str s) =>
      match pySplit s with
      | [] => ([], regs, some PyErr.indexError)
      | first_word :: _ =>
          andThenD
            (if (lookupD regs.commandFunctions first_word).isSome
              then process_command_function run regs raw_data
              else ([], regs, Option.none))
            (fun r1 => andThenD
              (if (lookupD r1.commandParsers first_word).isSome
                then process_parser_command run r1 raw_data
                else ([], r1, Option.none))
              (fun r2 => andThenD
                (if r2.shellCommands.contains first_word
                  then process_shell_command r2 raw_data
                  else ([], r2, Option.none))
                (fun r3 => andThenD
                  (if (lookupD r3.shellAliases first_word).isSome
                    then process_shell_alias r3 raw_data
                    else ([], r3, Option.none))
                  (fun r4 => process_parser_all run r4 raw_data))))
  | some _ => ([], regs, some PyErr.attributeError)
  | Option.none => ([], regs, some PyErr.keyError)

/-- `register_shell_command` (module level): adds `command.split()[0]` to
the shell command set; fails with an IndexError on a whitespace-only
input. -/
def register_shell_command (registry : List String) (command : String) :
    Except PyErr (List String) :=
  match pySplit command with
  | [] => Except.error PyErr.indexError
  | w :: _ => Except.ok (setAdd registry w)

/-- `NTFYOpenClientRealTime.add_shell_command`: adds the whole `command`
string to the shell command set, unmodified. -/
def add_shell_command (registry : List String) (command : String) :
    List String :=
  setAdd registry command

/-- A named Python function: the `__name__` attribute under which the
registration decorators and methods file it, plus an abstract body. -/
structure PyFunc (α : Type) where
  name : String
  body : α
deriving DecidableEq, Repr

/-- The shared shape of `register_command`, `register_command_parser`,
`register_parser` and the `add_command_function` / `add_command_parser` /
`add_parser` methods: `REGISTRY.update({f.__name__: f})`. -/
def register_command {α : Type} (registry : List (String × PyFunc α))
    (f : PyFunc α) : List (String × PyFunc α) :=
  setKey registry f.name f

/-- Handler semantics where handlers do nothing: never raise, never touch
the registries.  Used to state pure dispatch-order properties. -/
def runU : HandlerRun Unit := fun _ _ r => (r, Option.none)

/-- Recognizer for shell-alias spawn events. -/
def isAliasSpawn {H : Type} : Event H → Bool
  | Event.spawnShellAlias _ => true
  | _ => false

/-- Recognizer for shell-command spawn events. -/
def isShellSpawn {H : Type} : Event H → Bool
  | Event.spawnShell _ => true
  | _ => false

/-- Example registries: a single global parser, nothing else. -/
def regsGP : Regs Unit :=
  { commandFunctions := [], commandParsers := [], parsers := [("p", ())],
    shellCommands := [], shellAliases := [] }

/-- Example registries where the word ping triggers all four gated paths. -/
def regsFull : Regs Unit :=
  { commandFunctions := [("ping", ())], commandParsers := [("ping", ())],
    parsers := [("p", ())], shellCommands := ["ping"],
    shellAliases := [("ping", CmdLine.ofString "ping -c 1")] }

/-- Example registries with one shell alias. -/
def regsDeploy : Regs Unit :=
  { commandFunctions := [], commandParsers := [], parsers := [("p", ())],
    shellCommands := [], shellAliases :=
      [("deploy", CmdLine.ofList ["ssh", "host", "run-deploy"])] }

/-- Example registries with one shell command trigger. -/
def regsPing : Regs Unit :=
  { commandFunctions := [], commandParsers := [], parsers := [("p", ())],
    shellCommands := ["ping"], shellAliases := [] }

/-- Handler semantics over `Nat`-labelled handlers that do nothing. -/
def runNat : HandlerRun Nat := fun _ _ r => (r, Option.none)

/-- Example registries with one command function labelled 5. -/
def regsNat : Regs Nat :=
  { commandFunctions := [("reboot", 5)], commandParsers := [], parsers := [],
    shellCommands := [], shellAliases := [] }

/-- Handler semantics where the handler labelled 99 raises and all others
do nothing; no handler mutates the registries. -/
def runBoom : HandlerRun Nat := fun h _ r =>
  (r, if h = 99 then some (PyErr.userError "boom") else Option.none)

/-- Example registries whose command function raises under `runBoom`. -/
def regsBoom : Regs Nat :=
  { commandFunctions := [("reboot", 99)], commandParsers := [("reboot", 1)],
    parsers := [("p", 2)], shellCommands := [], shellAliases := [] }

/-- Example registries whose command function succeeds but whose command
parser raises under `runBoom`. -/
def regsBoom2 : Regs Nat :=
  { commandFunctions := [("reboot", 1)], commandParsers := [("reboot", 99)],
    parsers := [("p", 2)], shellCommands := [], shellAliases := [] }

/-- Example registries with a raising command parser and no command
function registered under the same token. -/
def regsBoomCP : Regs Nat :=
  { commandFunctions := [], commandParsers := [("reboot", 99)],
    parsers := [("p", 2)], shellCommands := [], shellAliases := [] }

/-- Example registries whose second global parser raises under `runBoom`,
with a third global parser after it. -/
def regsBoomGP : Regs Nat :=
  { commandFunctions := [], commandParsers := [],
    parsers := [("p", 2), ("q", 99), ("r", 3)], shellCommands := [],
    shellAliases := [] }

/-! ### Association-list lemmas -/

theorem lookupD_setKey_self {β : Type} (d : List (String × β)) (k : String)
    (v : β) : lookupD (setKey d k v) k = some v := by
  induction d with
  | nil => simp [setKey, lookupD]
  | cons p rest ih =>
      obtain ⟨k', v'⟩ := p
      by_cases h : k' = k
      · simp [setKey, h, lookupD]
      · simp [setKey, h, lookupD, ih]

theorem lookupD_setKey_ne {β : Type} (d : List (String × β)) {k k' : String}
    (v : β) (h : k' ≠ k) : lookupD (setKey d k v) k' = lookupD d k' := by
  induction d with
  | nil => simp [setKey, lookupD, Ne.symm h]
  | cons p rest ih =>
      obtain ⟨k₀, v₀⟩ := p
      by_cases h₀ : k₀ = k
      · subst h₀
        simp [setKey, lookupD, h, Ne.symm h]
      · simp only [setKey, if_neg h₀, lookupD]
        by_cases h₁ : k₀ = k'
        · simp [h₁]
        · simp [h₁, ih]

theorem setKey_setKey_self {β : Type} (d : List (String × β)) (k : String)
    (v w : β) : setKey (setKey d k v) k w = setKey d k w := by
  induction d with
  | nil => simp [setKey]
  | cons p rest ih =>
      obtain ⟨k', v'⟩ := p
      by_cases h : k' = k
      · simp [setKey, h]
      · simp [setKey, h, ih]

theorem lookupD_setKey_isSome {β : Type} (d : List (String × β))
    (k k' : String) (v : β) (h : (lookupD d k').isSome) :
    (lookupD (setKey d k v) k').isSome := by
  by_cases hk : k' = k
  · subst hk
    simp [lookupD_setKey_self]
  · rw [lookupD_setKey_ne d v hk]
    exact h

theorem lookupD_mem {β : Type} {d : List (String × β)} {k : String} {v : β}
    (h : lookupD d k = some v) : (k, v) ∈ d := by
  induction d with
  | nil => simp [lookupD] at h
  | cons p rest ih =>
      obtain ⟨k', v'⟩ := p
      by_cases hk : k' = k
      · subst hk
        simp [lookupD] at h
        subst h
        exact List.mem_cons_self _ _
      · simp only [lookupD, if_neg hk] at h
        exact List.mem_cons_of_mem _ (ih h)

theorem lookupD_isSome_of_mem_keys {β : Type} {d : List (String × β)}
    {k : String} (h : k ∈ d.map Prod.fst) : (lookupD d k).isSome := by
  induction d with
  | nil => simp at h
  | cons p rest ih =>
      obtain ⟨k', v'⟩ := p
      by_cases hk : k' = k
      · simp [lookupD, hk]
      · simp only [List.map_cons, List.mem_cons] at h
        rcases h with h | h
        · exact absurd h.symm hk
        · simp only [lookupD, if_neg hk]
          exact ih h

theorem lookupD_eq_of_mem_nodup {β : Type} :
    ∀ (l : List (String × β)) (k : String) (v : β),
      (l.map Prod.fst).Nodup → (k, v) ∈ l → lookupD l k = some v := by
  intro l
  induction l with
  | nil => intro k v _ hm; simp at hm
  | cons p rest ih =>
      intro k v hnd hm
      obtain ⟨k', v'⟩ := p
      simp only [List.map_cons, List.nodup_cons] at hnd
      rcases List.mem_cons.mp hm with h | h
      · rw [← h]
        simp [lookupD]
      · have hk : k' ≠ k := by
          intro he
          apply hnd.1
          rw [he]
          exact List.mem_map_of_mem Prod.fst h
        simp only [lookupD, if_neg hk]
        exact ih k v hnd.2 h

theorem lookupD_foldl_setKey_of_not_mem {β : Type} :
    ∀ (m d : List (String × β)) (k : String), (∀ p ∈ m, p.1 ≠ k) →
      lookupD (m.foldl (fun d p => setKey d p.1 p.2) d) k = lookupD d k := by
  intro m
  induction m with
  | nil => intro d k _; rfl
  | cons p rest ih =>
      intro d k h
      simp only [List.foldl_cons]
      rw [ih (setKey d p.1 p.2) k fun q hq => h q (List.mem_cons_of_mem _ hq)]
      exact lookupD_setKey_ne d p.2 fun he =>
        h p (List.mem_cons_self _ _) he.symm

theorem lookupD_foldl_setKey_of_mem {β : Type} :
    ∀ (m d : List (String × β)) (k : String) (v : β),
      (m.map Prod.fst).Nodup → (k, v) ∈ m →
      lookupD (m.foldl (fun d p => setKey d p.1 p.2) d) k = some v := by
  intro m
  induction m with
  | nil => intro d k v _ hm; simp at hm
  | cons p rest ih =>
      intro d k v hnd hm
      simp only [List.map_cons, List.nodup_cons] at hnd
      rcases List.mem_cons.mp hm with h | h
      · subst h
        simp only [List.foldl_cons]
        have hnomem : ∀ q ∈ rest, q.1 ≠ k := by
          intro q hq he
          have : q.1 ∈ rest.map Prod.fst := List.mem_map_of_mem Prod.fst hq
          rw [he] at this
          exact hnd.1 this
        rw [lookupD_foldl_setKey_of_not_mem rest (setKey d k v) k hnomem]
        exact lookupD_setKey_self d k v
      · simp only [List.foldl_cons]
        exact ih (setKey d p.1 p.2) k v hnd.2 h

theorem lookupD_foldl_setKey_isSome {β : Type} :
    ∀ (m d : List (String × β)) (k : String), (lookupD d k).isSome →
      (lookupD (m.foldl (fun d p => setKey d p.1 p.2) d) k).isSome := by
  intro m
  induction m with
  | nil => intro d k h; exact h
  | cons p rest ih =>
      intro d k h
      simp only [List.foldl_cons]
      exact ih (setKey d p.1 p.2) k (lookupD_setKey_isSome d p.1 k p.2 h)

/-! ### Dispatch lemmas -/

theorem andThenD_ok {H : Type} (evs : List (Event H)) (r : Regs H)
    (f : Regs H → DispatchResult H) {evs' : List (Event H)} {r' : Regs H}
    {e' : Option PyErr} (h : f r = (evs', r', e')) :
    andThenD (evs, r, Option.none) f = (evs ++ evs', r', e') := by
  simp [andThenD, h]

theorem andThenD_err {H : Type} (evs : List (Event H)) (r : Regs H)
    (e : PyErr) (f : Regs H → DispatchResult H) :
    andThenD (evs, r, some e) f = (evs, r, some e) := rfl

theorem process_command_function_runU (regs : Regs Unit) (raw : PyDict)
    {s first : String} {rest : List String}
    (hm : lookupD raw "message" = some (Value.str s))
    (hs : pySplit s = first :: rest)
    (hc : (lookupD regs.commandFunctions first).isSome) :
    process_command_function runU regs raw =
      ([Event.callCommandFunction () (first :: rest) raw], regs, Option.none) := by
  obtain ⟨u, hu⟩ := Option.isSome_iff_exists.mp hc
  simp [process_command_function, hm, hs, hu, runU]

theorem process_parser_command_runU (regs : Regs Unit) (raw : PyDict)
    {s first : String} {rest : List String}
    (hm : lookupD raw "message" = some (Value.str s))
    (hs : pySplit s = first :: rest)
    (hc : (lookupD regs.commandParsers first).isSome) :
    process_parser_command runU regs raw =
      ([Event.callCommandParser () raw], regs, Option.none) := by
  obtain ⟨u, hu⟩ := Option.isSome_iff_exists.mp hc
  simp [process_parser_command, hm, hs, hu, runU]

theorem process_shell_command_eq {H : Type} (regs : Regs H) (raw : PyDict)
    {s : String} (hm : lookupD raw "message" = some (Value.str s)) :
    process_shell_command regs raw =
      ([Event.spawnShell (CmdLine.ofString s)], regs, Option.none) := by
  simp [process_shell_command, hm]

theorem process_shell_alias_eq {H : Type} (regs : Regs H) (raw : PyDict)
    {s first : String} {rest : List String} {c : CmdLine}
    (hm : lookupD raw "message" = some (Value.str s))
    (hs : pySplit s = first :: rest)
    (hc : lookupD regs.shellAliases first = some c) :
    process_shell_alias regs raw =
      ([Event.spawnShellAlias c], regs, Option.none) := by
  simp [process_shell_alias, hm, hs, hc]

theorem process_parser_go_runU (raw : PyDict) :
    ∀ (keys : List String) (r : Regs Unit),
      (∀ k ∈ keys, (lookupD r.parsers k).isSome) →
      process_parser_go runU raw keys r =
        (keys.map fun _ => Event.callGlobalParser () raw, r, Option.none) := by
  intro keys
  induction keys with
  | nil => intro r _; rfl
  | cons k ks ih =>
      intro r h
      obtain ⟨u, hu⟩ :=
        Option.isSome_iff_exists.mp (h k (List.mem_cons_self _ _))
      simp only [process_parser_go, hu, runU]
      rw [ih r fun k' hk' => h k' (List.mem_cons_of_mem _ hk')]
      rfl

theorem process_parser_runU (raw : PyDict) (r : Regs Unit) :
    process_parser_all runU r raw =
      (r.parsers.map fun _ => Event.callGlobalParser () raw, r, Option.none) := by
  unfold process_parser_all
  rw [process_parser_go_runU raw (r.parsers.map Prod.fst) r
    fun k hk => lookupD_isSome_of_mem_keys hk]
  rw [List.map_map]
  rfl

/-- Full characterization of `process_message` with inert handlers: the
trace is the fixed-order concatenation of the four gated paths and the
global parsers, no error is raised, and the registries are unchanged. -/
theorem process_message_runU_eq (regs : Regs Unit) (message : PyDict)
    {s first : String} {rest : List String}
    (hm : lookupD (get_notification_model message) "message" =
      some (Value.str s))
    (hs : pySplit s = first :: rest) :
    process_message runU regs message =
      ((if (lookupD regs.commandFunctions first).isSome
          then [Event.callCommandFunction () (pySplit s)
            (get_notification_model message)]
          else [])
        ++ (if (lookupD regs.commandParsers first).isSome
          then [Event.callCommandParser () (get_notification_model message)]
          else [])
        ++ (if regs.shellCommands.contains first
          then [Event.spawnShell (CmdLine.ofString s)]
          else [])
        ++ (match lookupD regs.shellAliases first with
          | some c => [Event.spawnShellAlias c]
          | Option.none => [])
        ++ regs.parsers.map
            (fun _ => Event.callGlobalParser () (get_notification_model message)),
       regs, Option.none) := by
  have h1 : (if (lookupD regs.commandFunctions first).isSome
      then process_command_function runU regs (get_notification_model message)
      else ([], regs, Option.none)) =
      ((if (lookupD regs.commandFunctions first).isSome
        then [Event.callCommandFunction () (first :: rest)
          (get_notification_model message)]
        else []), regs, Option.none) := by
    by_cases hc : (lookupD regs.commandFunctions first).isSome
    · rw [if_pos hc, if_pos hc,
        process_command_function_runU regs _ hm hs hc]
    · rw [if_neg hc, if_neg hc]
  have h2 : (if (lookupD regs.commandParsers first).isSome
      then process_parser_command runU regs (get_notification_model message)
      else ([], regs, Option.none)) =
      ((if (lookupD regs.commandParsers first).isSome
        then [Event.callCommandParser () (get_notification_model message)]
        else []), regs, Option.none) := by
    by_cases hc : (lookupD regs.commandParsers first).isSome
    · rw [if_pos hc, if_pos hc,
        process_parser_command_runU regs _ hm hs hc]
    · rw [if_neg hc, if_neg hc]
  have h3 : (if regs.shellCommands.contains first
      then process_shell_command regs (get_notification_model message)
      else ([], regs, Option.none)) =
      ((if regs.shellCommands.contains first
        then [Event.spawnShell (CmdLine.ofString s)]
        else []), regs, Option.none) := by
    by_cases hc : regs.shellCommands.contains first
    · rw [if_pos hc, if_pos hc, process_shell_command_eq regs _ hm]
    · rw [if_neg hc, if_neg hc]
  have h4 : (if (lookupD regs.shellAliases first).isSome
      then process_shell_alias regs (get_notification_model message)
      else ([], regs, Option.none)) =
      ((match lookupD regs.shellAliases first with
        | some c => [Event.spawnShellAlias c]
        | Option.none => []), regs, Option.none) := by
    by_cases hc : (lookupD regs.shellAliases first).isSome
    · obtain ⟨c, hcv⟩ := Option.isSome_iff_exists.mp hc
      rw [if_pos hc, process_shell_alias_eq regs _ hm hs hcv, hcv]
    · rw [if_neg hc]
      rw [Option.not_isSome_iff_eq_none] at hc
      rw [hc]
  have g5 : process_parser_all runU regs (get_notification_model message) =
      (regs.parsers.map
        (fun _ => Event.callGlobalParser () (get_notification_model message)),
       regs, Option.none) := process_parser_runU _ regs
  have g4 : andThenD
      (if (lookupD regs.shellAliases first).isSome
        then process_shell_alias regs (get_notification_model message)
        else ([], regs, Option.none))
      (fun r4 => process_parser_all runU r4 (get_notification_model message)) =
      ((match lookupD regs.shellAliases first with
        | some c => [Event.spawnShellAlias c]
        | Option.none => [])
        ++ regs.parsers.map
          (fun _ => Event.callGlobalParser () (get_notification_model message)),
       regs, Option.none) := by
    rw [h4]
    exact andThenD_ok _ regs _ g5
  have g3 : andThenD
      (if regs.shellCommands.contains first
        then process_shell_command regs (get_notification_model message)
        else ([], regs, Option.none))
      (fun r3 => andThenD
        (if (lookupD r3.shellAliases first).isSome
          then process_shell_alias r3 (get_notification_model message)
          else ([], r3, Option.none))
        (fun r4 => process_parser_all runU r4 (get_notification_model message))) =
      ((if regs.shellCommands.contains first
        then [Event.spawnShell (CmdLine.ofString s)] else [])
        ++ ((match lookupD regs.shellAliases first with
          | some c => [Event.spawnShellAlias c]
          | Option.none => [])
        ++ regs.parsers.map
          (fun _ => Event.callGlobalParser () (get_notification_model message))),
       regs, Option.none) := by
    rw [h3]
    exact andThenD_ok _ regs _ g4
  have g2 : andThenD
      (if (lookupD regs.commandParsers first).isSome
        then process_parser_command runU regs (get_notification_model message)
        else ([], regs, Option.none))
      (fun r2 => andThenD
        (if r2.shellCommands.contains first
          then process_shell_command r2 (get_notification_model message)
          else ([], r2, Option.none))
        (fun r3 => andThenD
          (if (lookupD r3.shellAliases first).isSome
            then process_shell_alias r3 (get_notification_model message)
            else ([], r3, Option.none))
          (fun r4 => process_parser_all runU r4 (get_notification_model message)))) =
      ((if (lookupD regs.commandParsers first).isSome
        then [Event.callCommandParser () (get_notification_model message)]
        else [])
        ++ ((if regs.shellCommands.contains first
          then [Event.spawnShell (CmdLine.ofString s)] else [])
        ++ ((match lookupD regs.shellAliases first with
          | some c => [Event.spawnShellAlias c]
          | Option.none => [])
        ++ regs.parsers.map
          (fun _ => Event.callGlobalParser () (get_notification_model message)))),
       regs, Option.none) := by
    rw [h2]
    exact andThenD_ok _ regs _ g3
  have g1 : andThenD
      (if (lookupD regs.commandFunctions first).isSome
        then process_command_function runU regs (get_notification_model message)
        else ([], regs, Option.none))
      (fun r1 => andThenD
        (if (lookupD r1.commandParsers first).isSome
          then process_parser_command runU r1 (get_notification_model message)
          else ([], r1, Option.none))
        (fun r2 => andThenD
          (if r2.shellCommands.contains first
            then process_shell_command r2 (get_notification_model message)
            else ([], r2, Option.none))
          (fun r3 => andThenD
            (if (lookupD r3.shellAliases first).isSome
              then process_shell_alias r3 (get_notification_model message)
              else ([], r3, Option.none))
            (fun r4 => process_parser_all runU r4 (get_notification_model message))))) =
      ((if (lookupD regs.commandFunctions first).isSome
        then [Event.callCommandFunction () (first :: rest)
          (get_notification_model message)]
        else [])
        ++ ((if (lookupD regs.commandParsers first).isSome
          then [Event.callCommandParser () (get_notification_model message)]
          else [])
        ++ ((if regs.shellCommands.contains first
          then [Event.spawnShell (CmdLine.ofString s)] else [])
        ++ ((match lookupD regs.shellAliases first with
          | some c => [Event.spawnShellAlias c]
          | Option.none => [])
        ++ regs.parsers.map
          (fun _ => Event.callGlobalParser () (get_notification_model message))))),
       regs, Option.none) := by
    rw [h1]
    exact andThenD_ok _ regs _ g2
  simp only [process_message, hm, hs]
  rw [g1]
  simp [List.append_assoc]

theorem process_command_function_eq {H : Type} (run : HandlerRun H)
    (regs : Regs H) (raw : PyDict) {s first : String} {rest : List String}
    {h : H} (hm : lookupD raw "message" = some (Value.str s))
    (hs : pySplit s = first :: rest)
    (hc : lookupD regs.commandFunctions first = some h) :
    process_command_function run regs raw =
      ([Event.callCommandFunction h (first :: rest) raw],
       (run h raw regs).1, (run h raw regs).2) := by
  simp only [process_command_function, hm, hs, hc]

theorem process_parser_command_eq {H : Type} (run : HandlerRun H)
    (regs : Regs H) (raw : PyDict) {s first : String} {rest : List String}
    {h : H} (hm : lookupD raw "message" = some (Value.str s))
    (hs : pySplit s = first :: rest)
    (hc : lookupD regs.commandParsers first = some h) :
    process_parser_command run regs raw =
      ([Event.callCommandParser h raw],
       (run h raw regs).1, (run h raw regs).2) := by
  simp only [process_parser_command, hm, hs, hc]

theorem andThenD_head {H : Type} (ev : Event H) (evs : List (Event H))
    (r : Regs H) (e : Option PyErr) (f : Regs H → DispatchResult H) :
    (andThenD (ev :: evs, r, e) f).1.head? = some ev := by
  cases e with
  | none =>
      simp only [andThenD]
      rcases f r with ⟨a, b, c⟩
      rfl
  | some e => rfl

theorem andThenD_frame {H : Type} {t : DispatchResult H} {r : Regs H}
    (f : Regs H → DispatchResult H) (ht : t.2.1 = r)
    (hf : (f r).2.1 = r) : (andThenD t f).2.1 = r := by
  rcases t with ⟨evs, r0, err⟩
  simp only at ht
  subst ht
  cases err with
  | none =>
      simp only [andThenD]
      rcases hfr : f r0 with ⟨a, b, c⟩
      rw [hfr] at hf
      exact hf
  | some e => exact rfl

theorem process_command_function_frame {H : Type} (run : HandlerRun H)
    (regs : Regs H) (raw : PyDict)
    (hp : ∀ (s first : String) (rest : List String) (h : H),
      lookupD raw "message" = some (Value.str s) →
      pySplit s = first :: rest →
      lookupD regs.commandFunctions first = some h →
      (run h raw regs).1 = regs) :
    (process_command_function run regs raw).2.1 = regs := by
  rcases hm : lookupD raw "message" with _ | v
  · simp [process_command_function, hm]
  · cases v with
    | str s =>
        rcases hs : pySplit s with _ | ⟨first, rest⟩
        · simp [process_command_function, hm, hs]
        · rcases hc : lookupD regs.commandFunctions first with _ | h
          · simp [process_command_function, hm, hs, hc]
          · simp only [process_command_function, hm, hs, hc]
            rcases hq : run h raw regs with ⟨r2, err⟩
            have hr : r2 = regs := by
              have := hp s first rest h hm hs hc
              rw [hq] at this
              exact this
            simp [hq, hr]
    | none => simp [process_command_function, hm]
    | int n => simp [process_command_function, hm]
    | bool b => simp [process_command_function, hm]

theorem process_parser_command_frame {H : Type} (run : HandlerRun H)
    (regs : Regs H) (raw : PyDict)
    (hp : ∀ (s first : String) (rest : List String) (h : H),
      lookupD raw "message" = some (Value.str s) →
      pySplit s = first :: rest →
      lookupD regs.commandParsers first = some h →
      (run h raw regs).1 = regs) :
    (process_parser_command run regs raw).2.1 = regs := by
  rcases hm : lookupD raw "message" with _ | v
  · simp [process_parser_command, hm]
  · cases v with
    | str s =>
        rcases hs : pySplit s with _ | ⟨first, rest⟩
        · simp [process_parser_command, hm, hs]
        · rcases hc : lookupD regs.commandParsers first with _ | h
          · simp [process_parser_command, hm, hs, hc]
          · simp only [process_parser_command, hm, hs, hc]
            rcases hq : run h raw regs with ⟨r2, err⟩
            have hr : r2 = regs := by
              have := hp s first rest h hm hs hc
              rw [hq] at this
              exact this
            simp [hq, hr]
    | none => simp [process_parser_command, hm]
    | int n => simp [process_parser_command, hm]
    | bool b => simp [process_parser_command, hm]

theorem process_shell_command_frame {H : Type} (regs : Regs H)
    (raw : PyDict) : (process_shell_command regs raw).2.1 = regs := by
  rcases hm : lookupD raw "message" with _ | v
  · simp [process_shell_command, hm]
  · cases v <;> simp [process_shell_command, hm]

theorem process_shell_alias_frame {H : Type} (regs : Regs H)
    (raw : PyDict) : (process_shell_alias regs raw).2.1 = regs := by
  rcases hm : lookupD raw "message" with _ | v
  · simp [process_shell_alias, hm]
  · cases v with
    | str s =>
        rcases hs : pySplit s with _ | ⟨first, rest⟩
        · simp [process_shell_alias, hm, hs]
        · rcases hc : lookupD regs.shellAliases first with _ | c <;>
            simp [process_shell_alias, hm, hs, hc]
    | none => simp [process_shell_alias, hm]
    | int n => simp [process_shell_alias, hm]
    | bool b => simp [process_shell_alias, hm]

theorem process_parser_go_frame {H : Type} (run : HandlerRun H)
    (raw : PyDict) : ∀ (keys : List String) (r : Regs H),
    (∀ (k : String) (h : H), (k, h) ∈ r.parsers → (run h raw r).1 = r) →
    (process_parser_go run raw keys r).2.1 = r := by
  intro keys
  induction keys with
  | nil => intro r _; rfl
  | cons k ks ih =>
      intro r hp
      rcases hk : lookupD r.parsers k with _ | h
      · simp [process_parser_go, hk]
      · rcases hq : run h raw r with ⟨r2, err⟩
        have hr : r2 = r := by
          have := hp k h (lookupD_mem hk)
          rw [hq] at this
          exact this
        subst hr
        cases err with
        | some e => simp [process_parser_go, hk, hq]
        | none =>
            simp only [process_parser_go, hk, hq]
            rcases hgo : process_parser_go run raw ks r2 with ⟨evs, r3, e3⟩
            have := ih r2 hp
            rw [hgo] at this
            simpa using this

theorem process_parser_frame {H : Type} (run : HandlerRun H)
    (regs : Regs H) (raw : PyDict)
    (hp : ∀ (k : String) (h : H), (k, h) ∈ regs.parsers →
      (run h raw regs).1 = regs) :
    (process_parser_all run regs raw).2.1 = regs :=
  process_parser_go_frame run raw (regs.parsers.map Prod.fst) regs hp

theorem process_parser_go_abort {H : Type} (run : HandlerRun H)
    (raw : PyDict) (r r' : Regs H) (e : PyErr) :
    ∀ (pres : List (String × H)) (kf : String) (hf : H)
      (postkeys : List String),
      (∀ p ∈ pres, lookupD r.parsers p.1 = some p.2) →
      (∀ p ∈ pres, run p.2 raw r = (r, Option.none)) →
      lookupD r.parsers kf = some hf →
      run hf raw r = (r', some e) →
      process_parser_go run raw (pres.map Prod.fst ++ kf :: postkeys) r =
        (pres.map (fun p => Event.callGlobalParser p.2 raw)
          ++ [Event.callGlobalParser hf raw], r', some e) := by
  intro pres
  induction pres with
  | nil =>
      intro kf hf postkeys _ _ hlf hrf
      simp [process_parser_go, hlf, hrf]
  | cons p pres ih =>
      intro kf hf postkeys hl hr hlf hrf
      have hlp := hl p (List.mem_cons_self _ _)
      have hrp := hr p (List.mem_cons_self _ _)
      simp only [List.map_cons, List.cons_append, List.append_eq,
        process_parser_go, hlp, hrp]
      rw [ih kf hf postkeys (fun q hq => hl q (List.mem_cons_of_mem _ hq))
        (fun q hq => hr q (List.mem_cons_of_mem _ hq)) hlf hrf]

/-! ### Claim theorems -/

/-- C3: the normalizer `get_notification_model` overlays the input mapping
on the fixed 20-field default record: on the empty input every canonical
field is the absence marker `None`; a supplied canonical field keeps its
value; unrecognized extra keys pass through unchanged; and every canonical
field name is present in the output for every input. -/
theorem c3_normalizer_overlays_defaults :
    (∀ F : String, F ∈ canonical_fields →
      lookupD (get_notification_model []) F = some Value.none)
    ∧ (∀ (F : String) (v : Value), F ∈ canonical_fields →
      lookupD (get_notification_model [(F, v)]) F = some v)
    ∧ (∀ (m : PyDict) (k : String) (v : Value), (m.map Prod.fst).Nodup →
      (k, v) ∈ m → k ∉ canonical_fields →
      lookupD (get_notification_model m) k = some v)
    ∧ (∀ (m : PyDict) (F : String), F ∈ canonical_fields →
      (lookupD (get_notification_model m) F).isSome) := by
  refine ⟨?_, ?_, ?_, ?_⟩
  · intro F hF
    revert F
    decide
  · intro F v _
    exact lookupD_setKey_self notification_dict F v
  · intro m k v hnd hm _
    exact lookupD_foldl_setKey_of_mem m notification_dict k v hnd hm
  · intro m F hF
    refine lookupD_foldl_setKey_isSome m notification_dict F ?_
    revert F hF
    have : ∀ F ∈ canonical_fields, (lookupD notification_dict F).isSome := by
      decide
    exact this

/-- C3 witness: concrete instances of each conjunct, evaluated. -/
theorem c3_witness :
    lookupD (get_notification_model []) "message" = some Value.none
    ∧ lookupD (get_notification_model [("title", Value.str "t")]) "title"
        = some (Value.str "t")
    ∧ lookupD (get_notification_model [("extra", Value.int 7)]) "extra"
        = some (Value.int 7)
    ∧ (lookupD (get_notification_model [("extra", Value.int 7)]) "acked").isSome :=
  ⟨c3_normalizer_overlays_defaults.1 "message" (by decide),
   c3_normalizer_overlays_defaults.2.1 "title" (Value.str "t") (by decide),
   c3_normalizer_overlays_defaults.2.2.1 [("extra", Value.int 7)] "extra"
     (Value.int 7) (by decide) (by decide) (by decide),
   c3_normalizer_overlays_defaults.2.2.2 [("extra", Value.int 7)] "acked"
     (by decide)⟩

/-- C5 counterexample: the claim says both registration operations store
exactly the first whitespace token, but `add_shell_command` stores the
entire input string: for input "ping -c 3" the stored key is
"ping -c 3", not the first token "ping". -/
theorem c5_counterexample :
    (pySplit "ping -c 3").head? = some "ping"
    ∧ add_shell_command [] "ping -c 3" = ["ping -c 3"]
    ∧ ("ping -c 3" : String) ≠ "ping" := by
  refine ⟨by decide, by decide, by decide⟩

/-- C5 (amended): the module-level `register_shell_command` stores exactly
the first whitespace token of its input, discarding the remainder (and
fails with an IndexError on input with no tokens), while the method
`add_shell_command` stores the entire input string unchanged as the
trigger key. -/
theorem c5_shell_command_registration :
    (∀ (reg : List String) (cmd w : String) (ws : List String),
      pySplit cmd = w :: ws →
      register_shell_command reg cmd = Except.ok (setAdd reg w))
    ∧ (∀ (reg : List String) (cmd : String), pySplit cmd = [] →
      register_shell_command reg cmd = Except.error PyErr.indexError)
    ∧ (∀ (reg : List String) (cmd : String),
      add_shell_command reg cmd = setAdd reg cmd) := by
  refine ⟨?_, ?_, ?_⟩
  · intro reg cmd w ws h
    simp [register_shell_command, h]
  · intro reg cmd h
    simp [register_shell_command, h]
  · intro reg cmd
    rfl

/-- C5 witness: the amended statement evaluated at "ping -c 3". -/
theorem c5_witness :
    register_shell_command [] "ping -c 3" = Except.ok ["ping"]
    ∧ register_shell_command [] "  " = Except.error PyErr.indexError
    ∧ add_shell_command [] "ping -c 3" = ["ping -c 3"] := by
  refine ⟨?_, ?_, ?_⟩
  · rw [c5_shell_command_registration.1 [] "ping -c 3" "ping" ["-c", "3"]
      (by decide)]
    rfl
  · exact c5_shell_command_registration.2.1 [] "  " (by decide)
  · rw [c5_shell_command_registration.2.2 [] "ping -c 3"]
    rfl

/-- C9: for the name-keyed registries, registering `h1` and then `h2`
under the same name leaves exactly `h2` resolvable by that name (last
registration wins); registration is total and registering the same
handler twice is idempotent; adding to the shell command set twice is
also idempotent. -/
theorem c9_registration_last_wins :
    (∀ (α : Type) (registry : List (String × PyFunc α)) (h1 h2 : PyFunc α),
      h1.name = h2.name →
      lookupD (register_command (register_command registry h1) h2) h2.name
        = some h2)
    ∧ (∀ (α : Type) (registry : List (String × PyFunc α)) (f : PyFunc α),
      register_command (register_command registry f) f
        = register_command registry f)
    ∧ (∀ (s : List String) (x : String), setAdd (setAdd s x) x = setAdd s x) := by
  refine ⟨?_, ?_, ?_⟩
  · intro α registry h1 h2 hn
    unfold register_command
    rw [hn, setKey_setKey_self]
    exact lookupD_setKey_self registry h2.name h2
  · intro α registry f
    exact setKey_setKey_self registry f.name f f
  · intro s x
    by_cases h : x ∈ s
    · simp [setAdd, h]
    · simp [setAdd, h]

/-- C9 witness: last-write-wins and idempotence at concrete inputs. -/
theorem c9_witness :
    lookupD (register_command (register_command
      ([] : List (String × PyFunc Nat)) ⟨"f", 1⟩) ⟨"f", 2⟩) "f"
      = some ⟨"f", 2⟩
    ∧ register_command (register_command
      ([] : List (String × PyFunc Nat)) ⟨"f", 1⟩) ⟨"f", 1⟩
      = register_command ([] : List (String × PyFunc Nat)) ⟨"f", 1⟩
    ∧ setAdd (setAdd [] "x") "x" = setAdd [] "x" :=
  ⟨c9_registration_last_wins.1 Nat [] ⟨"f", 1⟩ ⟨"f", 2⟩ (by rfl),
   c9_registration_last_wins.2.1 Nat [] ⟨"f", 1⟩,
   c9_registration_last_wins.2.2 [] "x"⟩

/-- C1 counterexample: the claim quantifies over every event whose
normalized `message` is a non-empty string, but for the non-empty
whitespace-only message " " the tokenization is empty, so `process_message`
raises an IndexError and the global parser is never invoked, instead of
running the dispatch sequence without error. -/
theorem c1_counterexample :
    (" " : String) ≠ ""
    ∧ lookupD (get_notification_model [("message", Value.str " ")]) "message"
        = some (Value.str " ")
    ∧ process_message runU regsGP [("message", Value.str " ")]
        = ([], regsGP, some PyErr.indexError) := by
  refine ⟨by decide, by decide, by decide⟩

/-- C1 (amended): for every inbound event whose normalized `message` field
is a string with a non-empty whitespace tokenization, dispatch performs
exactly, and in this fixed order: the command function (if the first token
is registered), the command parser (if registered), the shell spawn of the
whole message (if the token is in the shell command set), the spawn of the
stored alias command line (if the token is an alias), then every global
parser; the gates are independent, no error is raised, and if no registry
matches only the global parsers run. -/
theorem c1_dispatch_order (regs : Regs Unit) (message : PyDict)
    (s first : String) (rest : List String)
    (hm : lookupD (get_notification_model message) "message" =
      some (Value.str s))
    (hs : pySplit s = first :: rest) :
    process_message runU regs message =
      ((if (lookupD regs.commandFunctions first).isSome
          then [Event.callCommandFunction () (pySplit s)
            (get_notification_model message)]
          else [])
        ++ (if (lookupD regs.commandParsers first).isSome
          then [Event.callCommandParser () (get_notification_model message)]
          else [])
        ++ (if regs.shellCommands.contains first
          then [Event.spawnShell (CmdLine.ofString s)]
          else [])
        ++ (match lookupD regs.shellAliases first with
          | some c => [Event.spawnShellAlias c]
          | Option.none => [])
        ++ regs.parsers.map
            (fun _ => Event.callGlobalParser () (get_notification_model message)),
       regs, Option.none) :=
  process_message_runU_eq regs message hm hs

/-- C1 witness: a message whose first token is in all four registries
produces the five actions in the fixed order with no error. -/
theorem c1_witness :
    process_message runU regsFull [("message", Value.str "ping")] =
      ([Event.callCommandFunction () ["ping"]
          (get_notification_model [("message", Value.str "ping")]),
        Event.callCommandParser ()
          (get_notification_model [("message", Value.str "ping")]),
        Event.spawnShell (CmdLine.ofString "ping"),
        Event.spawnShellAlias (CmdLine.ofString "ping -c 1"),
        Event.callGlobalParser ()
          (get_notification_model [("message", Value.str "ping")])],
       regsFull, Option.none) := by
  rw [c1_dispatch_order regsFull [("message", Value.str "ping")] "ping" "ping"
    [] (by decide) (by decide)]
  decide

/-- C2: whenever the first whitespace token of the normalized message is a
key of the command function registry, the registered handler is the first
invocation of the dispatch, called with the whitespace tokenization of the
whole message as its positional arguments (the command word first) and the
full normalized record as `raw_data`. -/
theorem c2_command_function_args {H : Type} (run : HandlerRun H)
    (regs : Regs H) (message : PyDict) (s first : String)
    (rest : List String) (h : H)
    (hm : lookupD (get_notification_model message) "message" =
      some (Value.str s))
    (hs : pySplit s = first :: rest)
    (hc : lookupD regs.commandFunctions first = some h) :
    (process_message run regs message).1.head? =
      some (Event.callCommandFunction h (pySplit s)
        (get_notification_model message)) := by
  have hcs : (lookupD regs.commandFunctions first).isSome = true := by
    rw [hc]
    rfl
  simp only [process_message, hm, hs, hcs, if_true]
  rw [process_command_function_eq run regs _ hm hs hc]
  exact andThenD_head _ _ _ _ _

/-- C2 witness: message "reboot now" with a handler registered under
"reboot" is invoked with positional arguments ("reboot", "now") and the
full normalized record. -/
theorem c2_witness :
    (process_message runNat regsNat
      [("message", Value.str "reboot now")]).1.head? =
      some (Event.callCommandFunction 5 ["reboot", "now"]
        (get_notification_model [("message", Value.str "reboot now")])) := by
  have h := c2_command_function_args runNat regsNat
    [("message", Value.str "reboot now")] "reboot now" "reboot" ["now"] 5
    (by decide) (by decide) (by decide)
  have hsp : pySplit "reboot now" = ["reboot", "now"] := by decide
  rw [hsp] at h
  exact h

/-- C4 counterexample: for an event with no `message` field, the claim
says dispatch fails with an index-out-of-range condition, but the code
calls `.split()` on the normalized `None`, which is an attribute error,
not an index error (the registries are untouched either way). -/
theorem c4_counterexample :
    process_message runU regsGP [] = ([], regsGP, some PyErr.attributeError)
    ∧ PyErr.attributeError ≠ PyErr.indexError := by
  refine ⟨by decide, by decide⟩

/-- C4 (amended): an empty (or whitespace-only) message string fails with
an IndexError, and an absent message (normalized to the `None` marker)
fails with an attribute error; in both cases the error propagates to the
caller with no handler of any registry invoked and the registries
unchanged. -/
theorem c4_empty_or_absent_message {H : Type} (run : HandlerRun H)
    (regs : Regs H) (message : PyDict) :
    (∀ s : String,
      lookupD (get_notification_model message) "message" =
        some (Value.str s) →
      pySplit s = [] →
      process_message run regs message = ([], regs, some PyErr.indexError))
    ∧ (lookupD (get_notification_model message) "message" = some Value.none →
      process_message run regs message =
        ([], regs, some PyErr.attributeError)) := by
  constructor
  · intro s hm hs
    simp [process_message, hm, hs]
  · intro hm
    simp [process_message, hm]

/-- C4 witness: both failure modes at concrete inputs. -/
theorem c4_witness :
    process_message runU regsGP [("message", Value.str "")] =
      ([], regsGP, some PyErr.indexError)
    ∧ process_message runU regsGP [("message", Value.none)] =
      ([], regsGP, some PyErr.attributeError) :=
  ⟨(c4_empty_or_absent_message runU regsGP
      [("message", Value.str "")]).1 "" (by decide) (by decide),
   (c4_empty_or_absent_message runU regsGP
      [("message", Value.none)]).2 (by decide)⟩

/-- C6: when the first token of the message is a registered shell alias,
dispatch performs exactly one alias spawn, and its command line is the
stored one — determined by the alias registry entry alone, with the
tokens following the alias in the message discarded. -/
theorem c6_alias_spawn (regs : Regs Unit) (message : PyDict)
    (s first : String) (rest : List String) (c : CmdLine)
    (hm : lookupD (get_notification_model message) "message" =
      some (Value.str s))
    (hs : pySplit s = first :: rest)
    (hc : lookupD regs.shellAliases first = some c) :
    (process_message runU regs message).1.filter isAliasSpawn
      = [Event.spawnShellAlias c] := by
  rw [process_message_runU_eq regs message hm hs]
  simp only [hc]
  by_cases h1 : (lookupD regs.commandFunctions first).isSome <;>
    by_cases h2 : (lookupD regs.commandParsers first).isSome <;>
      by_cases h3 : regs.shellCommands.contains first <;>
        simp [h1, h2, h3, List.filter_append, isAliasSpawn, List.filter_map,
          Function.comp]

/-- C6 witness: the spec's example — message "deploy prod" with alias
"deploy" mapped to ["ssh", "host", "run-deploy"] spawns exactly that
stored argument list, ignoring "prod". -/
theorem c6_witness :
    (process_message runU regsDeploy
      [("message", Value.str "deploy prod")]).1.filter isAliasSpawn
      = [Event.spawnShellAlias (CmdLine.ofList ["ssh", "host", "run-deploy"])] :=
  c6_alias_spawn regsDeploy [("message", Value.str "deploy prod")]
    "deploy prod" "deploy" ["prod"] (CmdLine.ofList ["ssh", "host", "run-deploy"])
    (by decide) (by decide) (by decide)

/-- C7: when the first token of the message is in the shell command set,
dispatch performs exactly one shell-command spawn, and its command line is
the entire raw message string verbatim. -/
theorem c7_shell_spawn (regs : Regs Unit) (message : PyDict)
    (s first : String) (rest : List String)
    (hm : lookupD (get_notification_model message) "message" =
      some (Value.str s))
    (hs : pySplit s = first :: rest)
    (hsc : regs.shellCommands.contains first = true) :
    (process_message runU regs message).1.filter isShellSpawn
      = [Event.spawnShell (CmdLine.ofString s)] := by
  rw [process_message_runU_eq regs message hm hs]
  simp only [hsc]
  by_cases h1 : (lookupD regs.commandFunctions first).isSome <;>
    by_cases h2 : (lookupD regs.commandParsers first).isSome <;>
      rcases h4 : lookupD regs.shellAliases first with _ | c <;>
        simp [h1, h2, List.filter_append, isShellSpawn, List.filter_map,
          Function.comp]

/-- C7 witness: the spec's example — message "ping" with "ping"
registered spawns exactly the full message "ping" as the command line. -/
theorem c7_witness :
    (process_message runU regsPing
      [("message", Value.str "ping")]).1.filter isShellSpawn
      = [Event.spawnShell (CmdLine.ofString "ping")] :=
  c7_shell_spawn regsPing [("message", Value.str "ping")] "ping" "ping" []
    (by decide) (by decide) (by decide)

/-- C8: an error raised by an invoked handler is not caught: it becomes
the result of `process_message`, the later-positioned paths are skipped
(their events are absent from the trace), and the effects of the paths
that ran before the failing handler remain (their events stay in the
trace and the registry state produced before the failure is kept).
Covered for every position a raising handler can occupy: (1) a raising
command function (nothing else runs); (2) a command parser raising after
a successful command function (both invocations in the trace, the state
produced by the first threaded through); (3) a raising command parser
with no command function registered (it is the only invocation); (4) a
global parser raising at an arbitrary position in the parser registry,
with an arbitrary configuration of the four gated paths before it: all
earlier gated events and earlier parser invocations remain in the trace,
the parsers after the failing one are skipped, and the error
propagates. -/
theorem c8_uncaught_handler_error {H : Type} (run : HandlerRun H) :
    (∀ (regs : Regs H) (message : PyDict) (s first : String)
      (rest : List String) (h : H) (r' : Regs H) (e : PyErr),
      lookupD (get_notification_model message) "message" =
        some (Value.str s) →
      pySplit s = first :: rest →
      lookupD regs.commandFunctions first = some h →
      run h (get_notification_model message) regs = (r', some e) →
      process_message run regs message =
        ([Event.callCommandFunction h (pySplit s)
          (get_notification_model message)], r', some e))
    ∧ (∀ (regs : Regs H) (message : PyDict) (s first : String)
      (rest : List String) (h1 : H) (r1 : Regs H) (h2 : H) (r2 : Regs H)
      (e : PyErr),
      lookupD (get_notification_model message) "message" =
        some (Value.str s) →
      pySplit s = first :: rest →
      lookupD regs.commandFunctions first = some h1 →
      run h1 (get_notification_model message) regs = (r1, Option.none) →
      lookupD r1.commandParsers first = some h2 →
      run h2 (get_notification_model message) r1 = (r2, some e) →
      process_message run regs message =
        ([Event.callCommandFunction h1 (pySplit s)
            (get_notification_model message),
          Event.callCommandParser h2 (get_notification_model message)],
         r2, some e))
    ∧ (∀ (regs : Regs H) (message : PyDict) (s first : String)
      (rest : List String) (h2 : H) (r2 : Regs H) (e : PyErr),
      lookupD (get_notification_model message) "message" =
        some (Value.str s) →
      pySplit s = first :: rest →
      lookupD regs.commandFunctions first = Option.none →
      lookupD regs.commandParsers first = some h2 →
      run h2 (get_notification_model message) regs = (r2, some e) →
      process_message run regs message =
        ([Event.callCommandParser h2 (get_notification_model message)],
         r2, some e))
    ∧ (∀ (regs : Regs H) (message : PyDict) (s first : String)
      (rest : List String) (pre : List (String × H)) (kf : String) (hf : H)
      (post : List (String × H)) (r' : Regs H) (e : PyErr),
      lookupD (get_notification_model message) "message" =
        some (Value.str s) →
      pySplit s = first :: rest →
      (∀ h : H, lookupD regs.commandFunctions first = some h →
        run h (get_notification_model message) regs = (regs, Option.none)) →
      (∀ h : H, lookupD regs.commandParsers first = some h →
        run h (get_notification_model message) regs = (regs, Option.none)) →
      regs.parsers = pre ++ (kf, hf) :: post →
      (regs.parsers.map Prod.fst).Nodup →
      (∀ p ∈ pre, run p.2 (get_notification_model message) regs =
        (regs, Option.none)) →
      run hf (get_notification_model message) regs = (r', some e) →
      process_message run regs message =
        ((match lookupD regs.commandFunctions first with
          | some h => [Event.callCommandFunction h (pySplit s)
              (get_notification_model message)]
          | Option.none => [])
          ++ (match lookupD regs.commandParsers first with
          | some h => [Event.callCommandParser h
              (get_notification_model message)]
          | Option.none => [])
          ++ (if regs.shellCommands.contains first
          then [Event.spawnShell (CmdLine.ofString s)]
          else [])
          ++ (match lookupD regs.shellAliases first with
          | some c => [Event.spawnShellAlias c]
          | Option.none => [])
          ++ pre.map (fun p => Event.callGlobalParser p.2
              (get_notification_model message))
          ++ [Event.callGlobalParser hf (get_notification_model message)],
         r', some e)) := by
  refine ⟨?_, ?_, ?_, ?_⟩
  · intro regs message s first rest h r' e hm hs hc hrun
    have hcs : (lookupD regs.commandFunctions first).isSome = true := by
      rw [hc]
      rfl
    simp only [process_message, hm, hs, hcs, if_true]
    rw [process_command_function_eq run regs _ hm hs hc, hrun]
    exact andThenD_err _ _ _ _
  · intro regs message s first rest h1 r1 h2 r2 e hm hs hc1 hrun1 hc2 hrun2
    have hcs1 : (lookupD regs.commandFunctions first).isSome = true := by
      rw [hc1]
      rfl
    have hcs2 : (lookupD r1.commandParsers first).isSome = true := by
      rw [hc2]
      rfl
    have inner : andThenD
        (if (lookupD r1.commandParsers first).isSome
          then process_parser_command run r1 (get_notification_model message)
          else ([], r1, Option.none))
        (fun r2' => andThenD
          (if r2'.shellCommands.contains first
            then process_shell_command r2' (get_notification_model message)
            else ([], r2', Option.none))
          (fun r3 => andThenD
            (if (lookupD r3.shellAliases first).isSome
              then process_shell_alias r3 (get_notification_model message)
              else ([], r3, Option.none))
            (fun r4 => process_parser_all run r4
              (get_notification_model message)))) =
        ([Event.callCommandParser h2 (get_notification_model message)],
         r2, some e) := by
      rw [if_pos hcs2, process_parser_command_eq run r1 _ hm hs hc2, hrun2]
      exact andThenD_err _ _ _ _
    simp only [process_message, hm, hs, hcs1, if_true]
    rw [process_command_function_eq run regs _ hm hs hc1, hrun1]
    exact andThenD_ok _ r1 _ inner
  · intro regs message s first rest h2 r2 e hm hs hcf hc2 hrun2
    have hb : ¬ (lookupD regs.commandFunctions first).isSome = true := by
      rw [hcf]
      simp
    have hcs2 : (lookupD regs.commandParsers first).isSome = true := by
      rw [hc2]
      rfl
    have inner : andThenD
        (if (lookupD regs.commandParsers first).isSome
          then process_parser_command run regs (get_notification_model message)
          else ([], regs, Option.none))
        (fun r2' => andThenD
          (if r2'.shellCommands.contains first
            then process_shell_command r2' (get_notification_model message)
            else ([], r2', Option.none))
          (fun r3 => andThenD
            (if (lookupD r3.shellAliases first).isSome
              then process_shell_alias r3 (get_notification_model message)
              else ([], r3, Option.none))
            (fun r4 => process_parser_all run r4
              (get_notification_model message)))) =
        ([Event.callCommandParser h2 (get_notification_model message)],
         r2, some e) := by
      rw [if_pos hcs2, process_parser_command_eq run regs _ hm hs hc2, hrun2]
      exact andThenD_err _ _ _ _
    simp only [process_message, hm, hs]
    rw [if_neg hb]
    exact andThenD_ok _ regs _ inner
  · intro regs message s first rest pre kf hf post r' e hm hs hCFok hCPok
      hpp hnd hpre hfail
    have hst1 : (if (lookupD regs.commandFunctions first).isSome
        then process_command_function run regs (get_notification_model message)
        else ([], regs, Option.none)) =
        ((match lookupD regs.commandFunctions first with
          | some h => [Event.callCommandFunction h (first :: rest)
              (get_notification_model message)]
          | Option.none => []), regs, Option.none) := by
      rcases hcf : lookupD regs.commandFunctions first with _ | h
      · simp [hcf]
      · simp only [Option.isSome_some, if_true]
        rw [process_command_function_eq run regs _ hm hs hcf, hCFok h hcf]
    have hst2 : (if (lookupD regs.commandParsers first).isSome
        then process_parser_command run regs (get_notification_model message)
        else ([], regs, Option.none)) =
        ((match lookupD regs.commandParsers first with
          | some h => [Event.callCommandParser h
              (get_notification_model message)]
          | Option.none => []), regs, Option.none) := by
      rcases hcp : lookupD regs.commandParsers first with _ | h
      · simp [hcp]
      · simp only [Option.isSome_some, if_true]
        rw [process_parser_command_eq run regs _ hm hs hcp, hCPok h hcp]
    have hst3 : (if regs.shellCommands.contains first
        then process_shell_command regs (get_notification_model message)
        else ([], regs, Option.none)) =
        ((if regs.shellCommands.contains first
          then [Event.spawnShell (CmdLine.ofString s)]
          else []), regs, Option.none) := by
      by_cases hc : regs.shellCommands.contains first
      · rw [if_pos hc, if_pos hc, process_shell_command_eq regs _ hm]
      · rw [if_neg hc, if_neg hc]
    have hst4 : (if (lookupD regs.shellAliases first).isSome
        then process_shell_alias regs (get_notification_model message)
        else ([], regs, Option.none)) =
        ((match lookupD regs.shellAliases first with
          | some c => [Event.spawnShellAlias c]
          | Option.none => []), regs, Option.none) := by
      by_cases hc : (lookupD regs.shellAliases first).isSome
      · obtain ⟨c, hcv⟩ := Option.isSome_iff_exists.mp hc
        rw [if_pos hc, process_shell_alias_eq regs _ hm hs hcv, hcv]
      · rw [if_neg hc]
        rw [Option.not_isSome_iff_eq_none] at hc
        rw [hc]
    have hlookf : lookupD regs.parsers kf = some hf := by
      apply lookupD_eq_of_mem_nodup regs.parsers kf hf hnd
      rw [hpp]
      exact List.mem_append_right _ (List.mem_cons_self _ _)
    have hlookpre : ∀ p ∈ pre, lookupD regs.parsers p.1 = some p.2 := by
      intro p hp
      apply lookupD_eq_of_mem_nodup regs.parsers p.1 p.2 hnd
      rw [hpp]
      exact List.mem_append_left _ hp
    have g5 : process_parser_all run regs (get_notification_model message) =
        (pre.map (fun p => Event.callGlobalParser p.2
            (get_notification_model message))
          ++ [Event.callGlobalParser hf (get_notification_model message)],
         r', some e) := by
      unfold process_parser_all
      rw [hpp, List.map_append, List.map_cons]
      exact process_parser_go_abort run (get_notification_model message)
        regs r' e pre kf hf (post.map Prod.fst) hlookpre hpre hlookf hfail
    have g4 : andThenD
        (if (lookupD regs.shellAliases first).isSome
          then process_shell_alias regs (get_notification_model message)
          else ([], regs, Option.none))
        (fun r4 => process_parser_all run r4 (get_notification_model message)) =
        ((match lookupD regs.shellAliases first with
          | some c => [Event.spawnShellAlias c]
          | Option.none => [])
          ++ (pre.map (fun p => Event.callGlobalParser p.2
              (get_notification_model message))
            ++ [Event.callGlobalParser hf (get_notification_model message)]),
         r', some e) := by
      rw [hst4]
      exact andThenD_ok _ regs _ g5
    have g3 : andThenD
        (if regs.shellCommands.contains first
          then process_shell_command regs (get_notification_model message)
          else ([], regs, Option.none))
        (fun r3 => andThenD
          (if (lookupD r3.shellAliases first).isSome
            then process_shell_alias r3 (get_notification_model message)
            else ([], r3, Option.none))
          (fun r4 => process_parser_all run r4
            (get_notification_model message))) =
        ((if regs.shellCommands.contains first
          then [Event.spawnShell (CmdLine.ofString s)]
          else [])
          ++ ((match lookupD regs.shellAliases first with
          | some c => [Event.spawnShellAlias c]
          | Option.none => [])
          ++ (pre.map (fun p => Event.callGlobalParser p.2
              (get_notification_model message))
            ++ [Event.callGlobalParser hf
              (get_notification_model message)])),
         r', some e) := by
      rw [hst3]
      exact andThenD_ok _ regs _ g4
    have g2 : andThenD
        (if (lookupD regs.commandParsers first).isSome
          then process_parser_command run regs (get_notification_model message)
          else ([], regs, Option.none))
        (fun r2 => andThenD
          (if r2.shellCommands.contains first
            then process_shell_command r2 (get_notification_model message)
            else ([], r2, Option.none))
          (fun r3 => andThenD
            (if (lookupD r3.shellAliases first).isSome
              then process_shell_alias r3 (get_notification_model message)
              else ([], r3, Option.none))
            (fun r4 => process_parser_all run r4
              (get_notification_model message)))) =
        ((match lookupD regs.commandParsers first with
          | some h => [Event.callCommandParser h
              (get_notification_model message)]
          | Option.none => [])
          ++ ((if regs.shellCommands.contains first
          then [Event.spawnShell (CmdLine.ofString s)]
          else [])
          ++ ((match lookupD regs.shellAliases first with
          | some c => [Event.spawnShellAlias c]
          | Option.none => [])
          ++ (pre.map (fun p => Event.callGlobalParser p.2
              (get_notification_model message))
            ++ [Event.callGlobalParser hf
              (get_notification_model message)]))),
         r', some e) := by
      rw [hst2]
      exact andThenD_ok _ regs _ g3
    have g1 : andThenD
        (if (lookupD regs.commandFunctions first).isSome
          then process_command_function run regs (get_notification_model message)
          else ([], regs, Option.none))
        (fun r1 => andThenD
          (if (lookupD r1.commandParsers first).isSome
            then process_parser_command run r1 (get_notification_model message)
            else ([], r1, Option.none))
          (fun r2 => andThenD
            (if r2.shellCommands.contains first
              then process_shell_command r2 (get_notification_model message)
              else ([], r2, Option.none))
            (fun r3 => andThenD
              (if (lookupD r3.shellAliases first).isSome
                then process_shell_alias r3 (get_notification_model message)
                else ([], r3, Option.none))
              (fun r4 => process_parser_all run r4
                (get_notification_model message))))) =
        ((match lookupD regs.commandFunctions first with
          | some h => [Event.callCommandFunction h (first :: rest)
              (get_notification_model message)]
          | Option.none => [])
          ++ ((match lookupD regs.commandParsers first with
          | some h => [Event.callCommandParser h
              (get_notification_model message)]
          | Option.none => [])
          ++ ((if regs.shellCommands.contains first
          then [Event.spawnShell (CmdLine.ofString s)]
          else [])
          ++ ((match lookupD regs.shellAliases first with
          | some c => [Event.spawnShellAlias c]
          | Option.none => [])
          ++ (pre.map (fun p => Event.callGlobalParser p.2
              (get_notification_model message))
            ++ [Event.callGlobalParser hf
              (get_notification_model message)])))),
         r', some e) := by
      rw [hst1]
      exact andThenD_ok _ regs _ g2
    simp only [process_message, hm, hs]
    rw [g1]
    simp [List.append_assoc]

/-- C8 witness: the four configurations at concrete inputs — a raising
command function aborts after its own invocation; a raising command
parser aborts after a successful command function; a raising command
parser with no command function is the only invocation; a raising
middle global parser keeps the earlier parser invocation, skips the
later one, and propagates the error. -/
theorem c8_witness :
    process_message runBoom regsBoom [("message", Value.str "reboot now")] =
      ([Event.callCommandFunction 99 ["reboot", "now"]
        (get_notification_model [("message", Value.str "reboot now")])],
       regsBoom, some (PyErr.userError "boom"))
    ∧ process_message runBoom regsBoom2 [("message", Value.str "reboot now")] =
      ([Event.callCommandFunction 1 ["reboot", "now"]
          (get_notification_model [("message", Value.str "reboot now")]),
        Event.callCommandParser 99
          (get_notification_model [("message", Value.str "reboot now")])],
       regsBoom2, some (PyErr.userError "boom"))
    ∧ process_message runBoom regsBoomCP [("message", Value.str "reboot now")] =
      ([Event.callCommandParser 99
          (get_notification_model [("message", Value.str "reboot now")])],
       regsBoomCP, some (PyErr.userError "boom"))
    ∧ process_message runBoom regsBoomGP [("message", Value.str "x")] =
      ([Event.callGlobalParser 2
          (get_notification_model [("message", Value.str "x")]),
        Event.callGlobalParser 99
          (get_notification_model [("message", Value.str "x")])],
       regsBoomGP, some (PyErr.userError "boom")) := by
  have hsp : pySplit "reboot now" = ["reboot", "now"] := by decide
  refine ⟨?_, ?_, ?_, ?_⟩
  · have h := (c8_uncaught_handler_error runBoom).1 regsBoom
      [("message", Value.str "reboot now")] "reboot now" "reboot" ["now"]
      99 regsBoom (PyErr.userError "boom") (by decide) (by decide)
      (by decide) (by decide)
    rw [hsp] at h
    exact h
  · have h := (c8_uncaught_handler_error runBoom).2.1 regsBoom2
      [("message", Value.str "reboot now")] "reboot now" "reboot" ["now"]
      1 regsBoom2 99 regsBoom2 (PyErr.userError "boom") (by decide)
      (by decide) (by decide) (by decide) (by decide) (by decide)
    rw [hsp] at h
    exact h
  · exact (c8_uncaught_handler_error runBoom).2.2.1 regsBoomCP
      [("message", Value.str "reboot now")] "reboot now" "reboot" ["now"]
      99 regsBoomCP (PyErr.userError "boom") (by decide) (by decide)
      (by decide) (by decide) (by decide)
  · have h := (c8_uncaught_handler_error runBoom).2.2.2 regsBoomGP
      [("message", Value.str "x")] "x" "x" [] [("p", 2)] "q" 99 [("r", 3)]
      regsBoomGP (PyErr.userError "boom") (by decide) (by decide)
      (fun h hh => by simp [regsBoomGP, lookupD] at hh)
      (fun h hh => by simp [regsBoomGP, lookupD] at hh)
      (by rfl) (by decide) (by decide) (by decide)
    rw [h]
    decide

/-- C10: dispatch only reads the registries: for every inbound mapping,
if every handler that dispatch can invoke for it (the command function
and command parser registered under the message's first token, and every
global parser) leaves the registries unchanged when invoked on the
normalized record, then the registry state after `process_message` is
identical to the state before (normalization itself is a pure function of
the input mapping and never touches the registries). -/
theorem c10_dispatch_frame {H : Type} (run : HandlerRun H) (regs : Regs H)
    (message : PyDict)
    (hCF : ∀ (s first : String) (rest : List String) (h : H),
      lookupD (get_notification_model message) "message" =
        some (Value.str s) →
      pySplit s = first :: rest →
      lookupD regs.commandFunctions first = some h →
      (run h (get_notification_model message) regs).1 = regs)
    (hCP : ∀ (s first : String) (rest : List String) (h : H),
      lookupD (get_notification_model message) "message" =
        some (Value.str s) →
      pySplit s = first :: rest →
      lookupD regs.commandParsers first = some h →
      (run h (get_notification_model message) regs).1 = regs)
    (hGP : ∀ (k : String) (h : H), (k, h) ∈ regs.parsers →
      (run h (get_notification_model message) regs).1 = regs) :
    (process_message run regs message).2.1 = regs := by
  rcases hv : lookupD (get_notification_model message) "message" with _ | v
  · simp [process_message, hv]
  · cases v with
    | str s =>
        rcases hsp : pySplit s with _ | ⟨first, rest⟩
        · simp [process_message, hv, hsp]
        · simp only [process_message, hv, hsp]
          refine andThenD_frame _ ?_ ?_
          · by_cases h1 : (lookupD regs.commandFunctions first).isSome
            · rw [if_pos h1]
              exact process_command_function_frame run regs _ hCF
            · rw [if_neg h1]
          · refine andThenD_frame _ ?_ ?_
            · by_cases h2 : (lookupD regs.commandParsers first).isSome
              · rw [if_pos h2]
                exact process_parser_command_frame run regs _ hCP
              · rw [if_neg h2]
            · refine andThenD_frame _ ?_ ?_
              · by_cases h3 : regs.shellCommands.contains first
                · rw [if_pos h3]
                  exact process_shell_command_frame regs _
                · rw [if_neg h3]
              · refine andThenD_frame _ ?_ ?_
                · by_cases h4 : (lookupD regs.shellAliases first).isSome
                  · rw [if_pos h4]
                    exact process_shell_alias_frame regs _
                  · rw [if_neg h4]
                · exact process_parser_frame run regs _ hGP
    | none => simp [process_message, hv]
    | int n => simp [process_message, hv]
    | bool b => simp [process_message, hv]

/-- C10 witness: even with a raising handler, handlers that leave the
registries alone leave the registry state of the dispatch unchanged. -/
theorem c10_witness :
    (process_message runBoom regsBoom
      [("message", Value.str "reboot now")]).2.1 = regsBoom :=
  c10_dispatch_frame runBoom regsBoom [("message", Value.str "reboot now")]
    (fun _ _ _ _ _ _ _ => rfl) (fun _ _ _ _ _ _ _ => rfl)
    (fun _ _ _ => rfl)

end NtfyRTC
